import Mathlib

/-!
Verification of the transcript-acquisition engine of this repository.

The Lean definitions below are shallow embeddings of the Python functions in
`transcript_api.py`, `api/transcript_api.py`, `api/youtube_deepgram_transcriber.py`
and `main.py`.  Machine time is modelled as an explicit rational parameter,
exceptions as an explicit error type carried in `Except`/`Option`, and the
process-wide cache dictionary as an explicit association list threaded through
the operations.  Each definition's doc comment names the Python function it
embeds.
-/

/-! ## Error model

The exception types imported from `youtube_transcript_api._errors`, plus a
catch-all constructor for every other Python exception type. -/

/-- The exception classes that the transcript code distinguishes:
`RequestBlocked`, `YouTubeRequestFailed`, `TranscriptsDisabled`,
`NoTranscriptFound`, `VideoUnavailable`, and any other exception. -/
inductive PyError where
  | requestBlocked
  | youTubeRequestFailed
  | transcriptsDisabled
  | noTranscriptFound
  | videoUnavailable
  | otherError (msg : String)
  deriving DecidableEq

/-- The first `except` clause of `retry_with_backoff` in `transcript_api.py`
catches exactly `(RequestBlocked, YouTubeRequestFailed)`. -/
def isRetryable : PyError → Bool
  | .requestBlocked => true
  | .youTubeRequestFailed => true
  | _ => false

/-- The second `except` clause of `retry_with_backoff` catches exactly
`(TranscriptsDisabled, NoTranscriptFound, VideoUnavailable)` and re-raises. -/
def isTerminalCaption : PyError → Bool
  | .transcriptsDisabled => true
  | .noTranscriptFound => true
  | .videoUnavailable => true
  | _ => false

/-! ## Retry controller

Embedding of the decorator `retry_with_backoff` in `transcript_api.py`
(lines 31-65).  The decorated operation is modelled as a function from the
attempt index to that invocation's outcome.  The delays passed to
`time.sleep` are recorded in a trace; the float arithmetic
`min(initial_delay * backoff_multiplier ** attempt, max_delay)` is exact on
the small powers of two involved, so it is carried out in `ℚ`. -/

/-- `RETRY_CONFIG['max_retries']`. -/
def max_retries_config : Nat := 3

/-- `RETRY_CONFIG['initial_delay']` (seconds). -/
def initial_delay : ℚ := 1

/-- `RETRY_CONFIG['max_delay']` (seconds). -/
def max_delay : ℚ := 10

/-- `RETRY_CONFIG['backoff_multiplier']`. -/
def backoff_multiplier : ℚ := 2

/-- The delay computed before retrying attempt `attempt + 1`:
`min(RETRY_CONFIG['initial_delay'] * (RETRY_CONFIG['backoff_multiplier'] ** attempt), RETRY_CONFIG['max_delay'])`. -/
def backoffDelay (attempt : Nat) : ℚ :=
  min (initial_delay * backoff_multiplier ^ attempt) max_delay

/-- Observable trace of one run of the retry loop: the sequence of delays
passed to `time.sleep`, the number of invocations of the wrapped operation,
and the returned value or raised exception. -/
structure RetryTrace (α : Type) where
  delays : List ℚ
  calls : Nat
  result : Except PyError α

/-- The `for attempt in range(max_retries + 1)` loop body of the `wrapper`
closure in `retry_with_backoff`.  `fuel` counts the remaining iterations
after the current one, so `fuel = 0` is the `attempt < max_retries` failing
case in which the retryable handler re-raises.  A retryable error with fuel
left sleeps `backoffDelay attempt` and continues; a terminal caption error is
re-raised at once; any other exception is not caught by the wrapper and
propagates at once.  (The final `raise last_exception or Exception(...)`
line after the loop is unreachable: every iteration returns or raises.) -/
def retryGo {α : Type} (op : Nat → Except PyError α) (attempt : Nat) : Nat → RetryTrace α
  | 0 =>
    match op attempt with
    | .ok v => ⟨[], 1, .ok v⟩
    | .error e => ⟨[], 1, .error e⟩
  | fuel + 1 =>
    match op attempt with
    | .ok v => ⟨[], 1, .ok v⟩
    | .error e =>
      if isRetryable e then
        let rest := retryGo op (attempt + 1) fuel
        ⟨backoffDelay attempt :: rest.delays, rest.calls + 1, rest.result⟩
      else ⟨[], 1, .error e⟩

/-- `retry_with_backoff(max_retries=3)` applied to an operation: runs the
attempt loop starting at attempt 0 with `max_retries = 3` retries left. -/
def retry_with_backoff {α : Type} (op : Nat → Except PyError α) : RetryTrace α :=
  retryGo op 0 max_retries_config

/-! ## `noOfProducts` from `main.py`

Python's `c % disAmount` raises `ZeroDivisionError` when `disAmount == 0`,
so the modulo is embedded as a fallible operation; `noOfProducts` returns
`none` exactly when Python would raise.  `Counter(orders)` maps each distinct
value of `orders` to its number of occurrences; iterating its items visits
each distinct value once, which `orders.dedup` provides (the count of a value
does not depend on the iteration order).  For `c ≥ 0` and `d > 0`, the only
case in which the modulo is reached, Python's `%` agrees with `Int.emod`. -/

/-- Python `a % b` on ints: raises (`none`) when `b = 0`. -/
def pyMod (a b : Int) : Option Int :=
  if b = 0 then none else some (a % b)

/-- The `for _, c in freq.items()` loop of `noOfProducts`: `keys` are the
distinct values still to visit, `count` the accumulator.  The guard
`c > 0 and c % disAmount == 0` short-circuits, so the modulo is evaluated
only when `c > 0`. -/
def countLoop (orders : List Int) (disAmount : Int) : List Int → Int → Option Int
  | [], count => some count
  | v :: keys, count =>
    let c : Int := (orders.count v : Int)
    if 0 < c then
      match pyMod c disAmount with
      | none => none
      | some m => countLoop orders disAmount keys (if m = 0 then count + 1 else count)
    else countLoop orders disAmount keys count

/-- `noOfProducts(orders, disAmount)` from `main.py` lines 5-13. -/
def noOfProducts (orders : List Int) (disAmount : Int) : Option Int :=
  if disAmount ≤ 0 then some 0
  else countLoop orders disAmount orders.dedup 0

/-! ## Theorems for the retry controller (claims about `retry_with_backoff`) -/

/-- C2: an operation failing with a retryable error on exactly attempts
0, 1, 2 and succeeding on attempt 3 causes exactly 3 sleeps, of
`min(1.0 * 2.0 ** attempt, 10.0)` = 1, 2, 4 seconds, 4 invocations in
total, and the successful attempt's result is returned unchanged. -/
theorem retry_three_retryable_then_success {α : Type} (op : Nat → Except PyError α) (v : α)
    (hf : ∀ k, k < 3 → ∃ e, op k = Except.error e ∧ isRetryable e = true)
    (hs : op 3 = Except.ok v) :
    (retry_with_backoff op).delays = [1, 2, 4] ∧
    (retry_with_backoff op).calls = 4 ∧
    (retry_with_backoff op).result = Except.ok v := by
  obtain ⟨e0, h0, r0⟩ := hf 0 (by norm_num)
  obtain ⟨e1, h1, r1⟩ := hf 1 (by norm_num)
  obtain ⟨e2, h2, r2⟩ := hf 2 (by norm_num)
  simp [retry_with_backoff, max_retries_config, retryGo, h0, h1, h2, hs, r0, r1, r2,
    backoffDelay, initial_delay, backoff_multiplier, max_delay]
  norm_num

/-- Witness for C2 at a concrete operation that is blocked on attempts 0-2
and succeeds on attempt 3. -/
theorem retry_three_retryable_then_success_witness :
    (retry_with_backoff
        (fun k => if k < 3 then Except.error PyError.requestBlocked else Except.ok 42)).delays
      = [1, 2, 4] ∧
    (retry_with_backoff
        (fun k => if k < 3 then Except.error PyError.requestBlocked else Except.ok 42)).result
      = Except.ok 42 := by
  have h := retry_three_retryable_then_success
    (fun k => if k < 3 then Except.error PyError.requestBlocked else Except.ok (42 : Nat)) 42
    (by intro k hk; interval_cases k <;> exact ⟨PyError.requestBlocked, rfl, rfl⟩)
    (by norm_num)
  exact ⟨h.1, h.2.2⟩

/-- C3: an operation failing with a retryable error on every attempt is
invoked exactly `max_retries + 1 = 4` times, and the retry controller
raises the error of the last attempt (attempt 3). -/
theorem retry_exhausted_raises_last {α : Type} (op : Nat → Except PyError α)
    (hf : ∀ k, k ≤ 3 → ∃ e, op k = Except.error e ∧ isRetryable e = true) :
    (retry_with_backoff op).calls = 4 ∧
    ∃ e, op 3 = Except.error e ∧ (retry_with_backoff op).result = Except.error e := by
  obtain ⟨e0, h0, r0⟩ := hf 0 (by norm_num)
  obtain ⟨e1, h1, r1⟩ := hf 1 (by norm_num)
  obtain ⟨e2, h2, r2⟩ := hf 2 (by norm_num)
  obtain ⟨e3, h3, r3⟩ := hf 3 (by norm_num)
  refine ⟨?_, e3, h3, ?_⟩ <;>
    simp [retry_with_backoff, max_retries_config, retryGo, h0, h1, h2, h3, r0, r1, r2, r3]

/-- Witness for C3 at a concrete operation that is blocked on every attempt. -/
theorem retry_exhausted_raises_last_witness :
    (retry_with_backoff (fun _ => (Except.error PyError.requestBlocked : Except PyError Nat))).calls = 4 ∧
    ∃ e, (fun _ => (Except.error PyError.requestBlocked : Except PyError Nat)) 3 = Except.error e ∧
      (retry_with_backoff (fun _ => (Except.error PyError.requestBlocked : Except PyError Nat))).result
        = Except.error e :=
  retry_exhausted_raises_last _
    (fun _ _ => ⟨PyError.requestBlocked, rfl, rfl⟩)

/-- C4: an operation whose first attempt raises a non-retryable error — a
terminal caption error (`TranscriptsDisabled`, `NoTranscriptFound`,
`VideoUnavailable`) or any unclassified exception — propagates that error
from the first attempt: no sleep is performed and the operation is not
invoked again. -/
theorem retry_nonretryable_propagates {α : Type} (op : Nat → Except PyError α) (e : PyError)
    (h0 : op 0 = Except.error e) (hc : isRetryable e = false) :
    (retry_with_backoff op).delays = [] ∧
    (retry_with_backoff op).calls = 1 ∧
    (retry_with_backoff op).result = Except.error e := by
  simp [retry_with_backoff, max_retries_config, retryGo, h0, hc]

/-- Witness for C4 at a concrete operation that raises `VideoUnavailable`
immediately (and an unclassified error likewise). -/
theorem retry_nonretryable_propagates_witness :
    ((retry_with_backoff (fun _ => (Except.error PyError.videoUnavailable : Except PyError Nat))).delays = [] ∧
      (retry_with_backoff (fun _ => (Except.error PyError.videoUnavailable : Except PyError Nat))).calls = 1 ∧
      (retry_with_backoff (fun _ => (Except.error PyError.videoUnavailable : Except PyError Nat))).result
        = Except.error PyError.videoUnavailable) ∧
    (retry_with_backoff (fun _ => (Except.error (PyError.otherError "boom") : Except PyError Nat))).calls = 1 :=
  ⟨retry_nonretryable_propagates _ _ rfl rfl,
    (retry_nonretryable_propagates (fun _ => (Except.error (PyError.otherError "boom") : Except PyError Nat))
      (PyError.otherError "boom") rfl rfl).2.1⟩

/-! ## Theorems for `noOfProducts` (claim C10) -/

/-- The loop counts exactly the keys whose occurrence count is positive and
divisible by `disAmount`, and never hits the zero divisor once `d ≠ 0`. -/
theorem countLoop_eq (orders : List Int) (d : Int) (hd : d ≠ 0)
    (keys : List Int) (acc : Int) :
    countLoop orders d keys acc =
      some (acc + ((keys.filter fun v =>
        decide (0 < (orders.count v : Int) ∧ d ∣ (orders.count v : Int))).length : Int)) := by
  induction keys generalizing acc with
  | nil => simp [countLoop]
  | cons v keys ih =>
    by_cases hc : 0 < (orders.count v : Int)
    · have hv : v ∈ orders := List.count_pos_iff.mp (by exact_mod_cast hc)
      have hmod : pyMod ((orders.count v : Int)) d = some ((orders.count v : Int) % d) := by
        simp [pyMod, hd]
      by_cases hdvd : d ∣ ((orders.count v : Int))
      · have hm : ((orders.count v : Int)) % d = 0 := Int.emod_eq_zero_of_dvd hdvd
        simp only [countLoop, hc, if_pos, hmod, hm, if_true]
        rw [ih]
        have : (List.filter (fun v =>
            decide (0 < (orders.count v : Int) ∧ d ∣ (orders.count v : Int))) (v :: keys)).length
            = (List.filter (fun v =>
            decide (0 < (orders.count v : Int) ∧ d ∣ (orders.count v : Int))) keys).length + 1 := by
          simp [List.filter_cons, hc, hv, hdvd]
        rw [this]
        push_cast
        ring_nf
      · have hm : ¬((orders.count v : Int)) % d = 0 := by
          intro h
          exact hdvd (Int.dvd_of_emod_eq_zero h)
        simp only [countLoop, hc, if_pos, hmod]
        rw [if_neg hm, ih]
        have : (List.filter (fun v =>
            decide (0 < (orders.count v : Int) ∧ d ∣ (orders.count v : Int))) (v :: keys))
            = List.filter (fun v =>
            decide (0 < (orders.count v : Int) ∧ d ∣ (orders.count v : Int))) keys := by
          simp [List.filter_cons, hc, hv, hdvd]
        rw [this]
    · have hv : v ∉ orders := by
        intro hmem
        exact hc (by exact_mod_cast List.count_pos_iff.mpr hmem)
      simp only [countLoop, hc, if_neg, if_false]
      rw [ih]
      have : (List.filter (fun v =>
          decide (0 < (orders.count v : Int) ∧ d ∣ (orders.count v : Int))) (v :: keys))
          = List.filter (fun v =>
          decide (0 < (orders.count v : Int) ∧ d ∣ (orders.count v : Int))) keys := by
        simp [List.filter_cons, hc, hv]
      rw [this]

/-- C10: `noOfProducts` is total — it never reaches the modulo with a zero
divisor — returning `0` whenever `disAmount ≤ 0`, and for `disAmount > 0`
returning the number of distinct values of `orders` whose occurrence count
is a positive multiple of `disAmount`.  (`orders.dedup` lists each distinct
value of `orders` exactly once: it is duplicate-free and has the same
membership as `orders`.) -/
theorem noOfProducts_total_spec (orders : List Int) (d : Int) :
    (∃ n, noOfProducts orders d = some n) ∧
    (d ≤ 0 → noOfProducts orders d = some 0) ∧
    (0 < d → noOfProducts orders d =
      some (((orders.dedup.filter fun v =>
        decide (0 < (orders.count v : Int) ∧ d ∣ (orders.count v : Int))).length : Int)) ∧
      orders.dedup.Nodup ∧ ∀ v, v ∈ orders.dedup ↔ v ∈ orders) := by
  by_cases hle : d ≤ 0
  · refine ⟨⟨0, ?_⟩, fun _ => ?_, fun hgt => absurd hgt (by omega)⟩ <;>
      simp [noOfProducts, hle]
  · have hd : d ≠ 0 := by omega
    have hrun : noOfProducts orders d =
        some (((orders.dedup.filter fun v =>
          decide (0 < (orders.count v : Int) ∧ d ∣ (orders.count v : Int))).length : Int)) := by
      rw [noOfProducts, if_neg hle, countLoop_eq orders d hd]
      norm_num
    exact ⟨⟨_, hrun⟩, fun h => absurd h hle,
      fun _ => ⟨hrun, orders.nodup_dedup, fun v => orders.mem_dedup⟩⟩

/-- Witness for C10 at `orders = [1, 1, 2, 3, 3, 3]`, `disAmount = 3`:
only the value 3 occurs a positive multiple of 3 times, so the result is 1. -/
theorem noOfProducts_total_spec_witness :
    ((0 : Int) < 3 ∧ noOfProducts [1, 1, 2, 3, 3, 3] 3 =
      some (((([1, 1, 2, 3, 3, 3] : List Int).dedup.filter fun v =>
        decide (0 < (([1, 1, 2, 3, 3, 3] : List Int).count v : Int) ∧
          (3 : Int) ∣ (([1, 1, 2, 3, 3, 3] : List Int).count v : Int))).length : Int))) ∧
    noOfProducts [1, 1, 2, 3, 3, 3] 3 = some 1 ∧
    noOfProducts [1, 1, 2, 3, 3, 3] 0 = some 0 := by
  refine ⟨⟨by norm_num, ((noOfProducts_total_spec [1, 1, 2, 3, 3, 3] 3).2.2 (by norm_num)).1⟩, by decide, by decide⟩

/-! ## Identifier extractor

Embedding of `extract_video_id` in `transcript_api.py` (lines 67-81).  Each
pattern `(?:lit)([^&\n?#]+)` is `re.search`ed: the engine scans start
positions left to right and at the first position where the literal matches
and is followed by at least one character outside the stop set, it returns
the greedy run of such characters (group 1).  The final pattern
`^([a-zA-Z0-9_-]{11})$` anchors to the whole input, where `$` also matches
just before a trailing newline. -/

/-- The negated character class `[^&\n?#]` of the capturing groups. -/
def stopChar (c : Char) : Bool :=
  c = '&' || c = '\n' || c = '?' || c = '#'

/-- The character class `[a-zA-Z0-9_-]` of the bare-identifier pattern. -/
def isIdChar (c : Char) : Bool :=
  c.isAlphanum || c = '_' || c = '-'

/-- Literal match at the start of `s`: returns the remainder of `s` after
the literal, or `none` on a mismatch. -/
def matchLit : List Char → List Char → Option (List Char)
  | [], s => some s
  | _ :: _, [] => none
  | p :: ps, c :: cs => if p = c then matchLit ps cs else none

/-- `re.search` of `(?:lit)([^&\n?#]+)`: scan start positions left to
right; where the literal matches, capture the greedy nonempty run of
non-stop characters, otherwise advance one position. -/
def searchCapture (lit : List Char) : List Char → Option (List Char)
  | [] => none
  | c :: t =>
    match matchLit lit (c :: t) with
    | some rest =>
      let run := rest.takeWhile fun ch => !stopChar ch
      if run.isEmpty then searchCapture lit t else some run
    | none => searchCapture lit t

/-- Literal of the pattern `(?:youtube\.com\/watch\?v=)`. -/
def watchLit : List Char := "youtube.com/watch?v=".data

/-- Literal of the pattern `(?:youtu\.be\/)`. -/
def shortLit : List Char := "youtu.be/".data

/-- Literal of the pattern `(?:youtube\.com\/embed\/)`. -/
def embedLit : List Char := "youtube.com/embed/".data

/-- Literal of the pattern `(?:youtube\.com\/shorts\/)`. -/
def shortsLit : List Char := "youtube.com/shorts/".data

/-- The anchored bare-identifier pattern `^([a-zA-Z0-9_-]{11})$`: matches
the whole input, allowing one trailing newline before `$`. -/
def bareToken (s : List Char) : Option (List Char) :=
  let core := if s.getLast? = some '\n' then s.dropLast else s
  if core.length = 11 && core.all isIdChar then some core else none

/-- `extract_video_id(url)` from `transcript_api.py`: the four URL-shape
patterns are tried in order, then the bare-identifier pattern; the first
match's group 1 is returned. -/
def extract_video_id (url : String) : Option String :=
  match searchCapture watchLit url.data with
  | some cap => some (String.mk cap)
  | none =>
  match searchCapture shortLit url.data with
  | some cap => some (String.mk cap)
  | none =>
  match searchCapture embedLit url.data with
  | some cap => some (String.mk cap)
  | none =>
  match searchCapture shortsLit url.data with
  | some cap => some (String.mk cap)
  | none =>
  match bareToken url.data with
  | some cap => some (String.mk cap)
  | none => none

/-! ### Lemmas about the pattern search -/

/-- A successful literal match puts every literal character in the text. -/
theorem matchLit_subset {lit s r : List Char} (h : matchLit lit s = some r) :
    ∀ c ∈ lit, c ∈ s := by
  induction lit generalizing s with
  | nil => intro c hc; cases hc
  | cons p ps ih =>
    cases s with
    | nil => simp [matchLit] at h
    | cons b bs =>
      by_cases hpb : p = b
      · subst hpb
        simp only [matchLit, if_pos rfl] at h
        intro c hc
        rcases List.mem_cons.mp hc with rfl | hc
        · exact List.mem_cons_self _ _
        · exact List.mem_cons_of_mem _ (ih h c hc)
      · simp [matchLit, hpb] at h

/-- A literal containing a non-identifier character never occurs in a text
of identifier characters. -/
theorem searchCapture_eq_none {lit s : List Char}
    (hs : ∀ c ∈ s, isIdChar c = true) (c₀ : Char) (hc₀ : c₀ ∈ lit)
    (hbad : isIdChar c₀ = false) : searchCapture lit s = none := by
  induction s with
  | nil => rfl
  | cons b bs ih =>
    cases h : matchLit lit (b :: bs) with
    | some r =>
      have : isIdChar c₀ = true := hs c₀ (matchLit_subset h c₀ hc₀)
      rw [hbad] at this
      cases this
    | none =>
      simp only [searchCapture, h]
      exact ih fun c hc => hs c (List.mem_cons_of_mem _ hc)

/-- Identifier characters are not stop characters. -/
theorem stopChar_eq_false_of_id {c : Char} (h : isIdChar c = true) :
    stopChar c = false := by
  by_contra hs
  have hs' : stopChar c = true := by
    revert hs; cases stopChar c <;> simp
  have : c = '&' ∨ c = '\n' ∨ c = '?' ∨ c = '#' := by
    simpa [stopChar, or_assoc] using hs'
  rcases this with rfl | rfl | rfl | rfl <;> exact absurd h (by decide)

/-- The greedy capture takes a whole identifier token. -/
theorem takeWhile_id (l : List Char) (h : ∀ c ∈ l, isIdChar c = true) :
    l.takeWhile (fun ch => !stopChar ch) = l := by
  induction l with
  | nil => rfl
  | cons b bs ih =>
    have hb := stopChar_eq_false_of_id (h b (List.mem_cons_self _ _))
    simp [List.takeWhile_cons, hb, ih fun c hc => h c (List.mem_cons_of_mem _ hc)]

/-- The watch-page pattern captures the identifier of a watch URL. -/
theorem search_watch_url (vd : List Char) (h11 : vd.length = 11)
    (hid : ∀ c ∈ vd, isIdChar c = true) :
    searchCapture watchLit ("https://www.youtube.com/watch?v=".data ++ vd) = some vd := by
  have hne : vd ≠ [] := by intro h; rw [h] at h11; simp at h11
  simp +decide [watchLit, searchCapture, matchLit, takeWhile_id vd hid]
  simp [List.isEmpty_iff, hne]

/-- The watch-page pattern does not occur in a short-link URL. -/
theorem search_watch_on_short (vd : List Char) (hid : ∀ c ∈ vd, isIdChar c = true) :
    searchCapture watchLit ("https://youtu.be/".data ++ vd) = none := by
  simp +decide [watchLit, searchCapture, matchLit]
  exact searchCapture_eq_none hid '.' (by decide) (by decide)

/-- The short-link pattern captures the identifier of a short-link URL. -/
theorem search_short_url (vd : List Char) (h11 : vd.length = 11)
    (hid : ∀ c ∈ vd, isIdChar c = true) :
    searchCapture shortLit ("https://youtu.be/".data ++ vd) = some vd := by
  have hne : vd ≠ [] := by intro h; rw [h] at h11; simp at h11
  simp +decide [shortLit, searchCapture, matchLit, takeWhile_id vd hid]
  simp [List.isEmpty_iff, hne]

/-- The watch-page pattern does not occur in an embed URL. -/
theorem search_watch_on_embed (vd : List Char) (hid : ∀ c ∈ vd, isIdChar c = true) :
    searchCapture watchLit ("https://www.youtube.com/embed/".data ++ vd) = none := by
  simp +decide [watchLit, searchCapture, matchLit]
  exact searchCapture_eq_none hid '.' (by decide) (by decide)

/-- The short-link pattern does not occur in an embed URL. -/
theorem search_short_on_embed (vd : List Char) (hid : ∀ c ∈ vd, isIdChar c = true) :
    searchCapture shortLit ("https://www.youtube.com/embed/".data ++ vd) = none := by
  simp +decide [shortLit, searchCapture, matchLit]
  exact searchCapture_eq_none hid '.' (by decide) (by decide)

/-- The embed pattern captures the identifier of an embed URL. -/
theorem search_embed_url (vd : List Char) (h11 : vd.length = 11)
    (hid : ∀ c ∈ vd, isIdChar c = true) :
    searchCapture embedLit ("https://www.youtube.com/embed/".data ++ vd) = some vd := by
  have hne : vd ≠ [] := by intro h; rw [h] at h11; simp at h11
  simp +decide [embedLit, searchCapture, matchLit, takeWhile_id vd hid]
  simp [List.isEmpty_iff, hne]

/-- The watch-page pattern does not occur in a shorts URL. -/
theorem search_watch_on_shorts (vd : List Char) (hid : ∀ c ∈ vd, isIdChar c = true) :
    searchCapture watchLit ("https://www.youtube.com/shorts/".data ++ vd) = none := by
  simp +decide [watchLit, searchCapture, matchLit]
  exact searchCapture_eq_none hid '.' (by decide) (by decide)

/-- The short-link pattern does not occur in a shorts URL. -/
theorem search_short_on_shorts (vd : List Char) (hid : ∀ c ∈ vd, isIdChar c = true) :
    searchCapture shortLit ("https://www.youtube.com/shorts/".data ++ vd) = none := by
  simp +decide [shortLit, searchCapture, matchLit]
  exact searchCapture_eq_none hid '.' (by decide) (by decide)

/-- The embed pattern does not occur in a shorts URL. -/
theorem search_embed_on_shorts (vd : List Char) (hid : ∀ c ∈ vd, isIdChar c = true) :
    searchCapture embedLit ("https://www.youtube.com/shorts/".data ++ vd) = none := by
  simp +decide [embedLit, searchCapture, matchLit]
  exact searchCapture_eq_none hid '.' (by decide) (by decide)

/-- The shorts pattern captures the identifier of a shorts URL. -/
theorem search_shorts_url (vd : List Char) (h11 : vd.length = 11)
    (hid : ∀ c ∈ vd, isIdChar c = true) :
    searchCapture shortsLit ("https://www.youtube.com/shorts/".data ++ vd) = some vd := by
  have hne : vd ≠ [] := by intro h; rw [h] at h11; simp at h11
  simp +decide [shortsLit, searchCapture, matchLit, takeWhile_id vd hid]
  simp [List.isEmpty_iff, hne]

/-- The bare-identifier pattern accepts a valid identifier. -/
theorem bareToken_id (vd : List Char) (h11 : vd.length = 11)
    (hid : ∀ c ∈ vd, isIdChar c = true) : bareToken vd = some vd := by
  have hlast : vd.getLast? ≠ some '\n' := by
    intro h
    obtain ⟨hne, heq⟩ := List.mem_getLast?_eq_getLast (Option.mem_def.mpr h)
    have hmem : ('\n' : Char) ∈ vd := heq ▸ List.getLast_mem hne
    exact absurd (hid '\n' hmem) (by decide)
  simp [bareToken, hlast, h11, List.all_eq_true.mpr hid]

/-- C5: every supported URL shape carrying an 11-character identifier —
watch-page query parameter, youtu.be short link, embed path, shorts path,
and the bare token — yields that same identifier, and the URL-shape
patterns are consulted before the bare-token pattern: a watch-pattern match
is returned outright, and the bare-token pattern is used only when all four
URL-shape patterns fail. -/
theorem extract_video_id_shapes (v : String) (h11 : v.length = 11)
    (hid : ∀ c ∈ v.data, isIdChar c = true) :
    extract_video_id ("https://www.youtube.com/watch?v=" ++ v) = some v ∧
    extract_video_id ("https://youtu.be/" ++ v) = some v ∧
    extract_video_id ("https://www.youtube.com/embed/" ++ v) = some v ∧
    extract_video_id ("https://www.youtube.com/shorts/" ++ v) = some v ∧
    extract_video_id v = some v ∧
    (∀ url cap, searchCapture watchLit url.data = some cap →
      extract_video_id url = some (String.mk cap)) ∧
    (∀ url, searchCapture watchLit url.data = none →
      searchCapture shortLit url.data = none →
      searchCapture embedLit url.data = none →
      searchCapture shortsLit url.data = none →
      extract_video_id url = Option.map String.mk (bareToken url.data)) := by
  obtain ⟨vd⟩ := v
  have h11' : vd.length = 11 := h11
  have hid' : ∀ c ∈ vd, isIdChar c = true := hid
  refine ⟨?_, ?_, ?_, ?_, ?_, ?_, ?_⟩
  · simp only [extract_video_id, String.data_append, search_watch_url vd h11' hid']
  · simp only [extract_video_id, String.data_append, search_watch_on_short vd hid',
      search_short_url vd h11' hid']
  · simp only [extract_video_id, String.data_append, search_watch_on_embed vd hid',
      search_short_on_embed vd hid', search_embed_url vd h11' hid']
  · simp only [extract_video_id, String.data_append, search_watch_on_shorts vd hid',
      search_short_on_shorts vd hid', search_embed_on_shorts vd hid',
      search_shorts_url vd h11' hid']
  · have hw : searchCapture watchLit vd = none :=
      searchCapture_eq_none hid' '.' (by decide) (by decide)
    have hsh : searchCapture shortLit vd = none :=
      searchCapture_eq_none hid' '.' (by decide) (by decide)
    have hem : searchCapture embedLit vd = none :=
      searchCapture_eq_none hid' '.' (by decide) (by decide)
    have hho : searchCapture shortsLit vd = none :=
      searchCapture_eq_none hid' '.' (by decide) (by decide)
    simp only [extract_video_id, hw, hsh, hem, hho, bareToken_id vd h11' hid']
  · intro url cap h
    simp only [extract_video_id, h]
  · intro url h1 h2 h3 h4
    simp only [extract_video_id, h1, h2, h3, h4]
    cases hb : bareToken url.data <;> simp [hb]

/-- Witness for C5 at the identifier `dQw4w9WgXcQ` from the spec's
scenario: the watch URL and the bare token both yield it. -/
theorem extract_video_id_shapes_witness :
    (("dQw4w9WgXcQ" : String).length = 11 ∧
      extract_video_id ("https://www.youtube.com/watch?v=" ++ "dQw4w9WgXcQ") = some "dQw4w9WgXcQ") ∧
    extract_video_id "https://www.youtube.com/watch?v=dQw4w9WgXcQ" = some "dQw4w9WgXcQ" ∧
    extract_video_id "dQw4w9WgXcQ" = some "dQw4w9WgXcQ" := by
  have h := extract_video_id_shapes "dQw4w9WgXcQ" (by decide) (by decide)
  refine ⟨⟨by decide, h.1⟩, ?_, h.2.2.2.2.1⟩
  have heq : ("https://www.youtube.com/watch?v=dQw4w9WgXcQ" : String)
      = "https://www.youtube.com/watch?v=" ++ "dQw4w9WgXcQ" := by decide
  rw [heq]
  exact h.1

/-! ## Transcript cache and orchestrator

Embedding of `transcript_cache` / `get_cached_transcript` /
`cache_transcript` / the transcribe request handler and the clear-cache
handler, shared by `transcript_api.py` and `api/transcript_api.py` (the
response-field shape below is the one of `api/transcript_api.py`'s
`do_POST`).  The process-wide dict is an association list with at most one
entry per key (assignment replaces the old entry); `time.time()` is an
explicit rational argument. -/

/-- The value returned by a successful `fetch_transcript_with_retry`:
`{'transcript': ..., 'language': ...}`. -/
structure TranscriptData where
  transcript : String
  language : String
  deriving DecidableEq

/-- The JSON document built by the transcribe handler:
`{'transcript': ..., 'language': ..., 'videoId': ..., 'cached': ...}`.
This whole document is what gets stored in the cache. -/
structure TResp where
  transcript : String
  language : String
  videoId : String
  cached : Bool
  deriving DecidableEq

/-- A cache slot: `{'data': ..., 'timestamp': ...}`. -/
structure CacheEntry where
  data : TResp
  timestamp : ℚ
  deriving DecidableEq

/-- The module-level dict `transcript_cache`. -/
def Cache := List (String × CacheEntry)

/-- `CACHE_TTL = 24 * 60 * 60` seconds. -/
def CACHE_TTL : ℚ := 24 * 60 * 60

/-- `get_cached_transcript(video_id)` at time `now`: a dict hit younger
than the TTL returns the stored data; anything else returns `None`.  The
function performs no writes, which the returned cache component records. -/
def get_cached_transcript (cache : Cache) (now : ℚ) (video_id : String) :
    Option TResp × Cache :=
  match List.lookup video_id cache with
  | some cached_data =>
    if now - cached_data.timestamp < CACHE_TTL then (some cached_data.data, cache)
    else (none, cache)
  | none => (none, cache)

/-- `cache_transcript(video_id, data)` at time `now`: dict assignment,
replacing any previous entry for the key. -/
def cache_transcript (cache : Cache) (now : ℚ) (video_id : String)
    (data : TResp) : Cache :=
  (video_id, ⟨data, now⟩) :: List.filter (fun p => p.1 != video_id) cache

/-- The clear-cache handler: `size = len(transcript_cache);
transcript_cache.clear()`, reporting `size` entries removed. -/
def clear_cache (cache : Cache) : Cache × Nat :=
  ([], List.length cache)

/-- Outcome of one transcribe request: a JSON document with an HTTP
status.  Error responses carry the status code and `error_type`. -/
inductive HttpResult where
  | ok (r : TResp)
  | err (status : Nat) (error_type : String)
  deriving DecidableEq

/-- The transcribe branch of `do_POST` in `api/transcript_api.py`
(lines 139-170), with `fetch_transcript_with_retry` abstracted as the
operation `fetchOp`.  Returns the response, the cache after the request,
and the number of upstream fetches performed.  A cache hit returns
`{**cached, 'cached': True}`; a fresh success stores the response document
marked `cached: False` and returns it. -/
def handle_transcribe (fetchOp : String → Except PyError TranscriptData)
    (cache : Cache) (now : ℚ) (url : String) : HttpResult × Cache × Nat :=
  match extract_video_id url with
  | none => (.err 400 "InvalidURL", cache, 0)
  | some video_id =>
    match (get_cached_transcript cache now video_id).1 with
    | some cached => (.ok { cached with cached := true }, cache, 0)
    | none =>
      match fetchOp video_id with
      | .ok tr =>
        let result : TResp := ⟨tr.transcript, tr.language, video_id, false⟩
        (.ok result, cache_transcript cache now video_id result, 1)
      | .error e =>
        if isTerminalCaption e then (.err 404 "NoCaptions", cache, 1)
        else if isRetryable e then (.err 429 "RateLimited", cache, 1)
        else (.err 500 "TranscriptionFailed", cache, 1)

/-! ## Theorems for the cache (claims C6, C7, C8) -/

/-- C6: a lookup at time `now` of an entry stored at `timestamp` returns
the stored result exactly when `now - timestamp < CACHE_TTL` (24 hours);
at or past the TTL the entry is treated as absent; an absent key reads as
absent; and no read — hit, miss or expired hit — modifies the cache. -/
theorem cache_ttl_read (c : Cache) (now : ℚ) (id : String) :
    (∀ e, List.lookup id c = some e →
      ((get_cached_transcript c now id).1 = some e.data ↔ now - e.timestamp < CACHE_TTL)) ∧
    (List.lookup id c = none → (get_cached_transcript c now id).1 = none) ∧
    (get_cached_transcript c now id).2 = c := by
  refine ⟨?_, ?_, ?_⟩
  · intro e he
    constructor
    · intro h
      by_contra hage
      simp [get_cached_transcript, he, hage] at h
    · intro hage
      simp [get_cached_transcript, he, hage]
  · intro hnone
    simp [get_cached_transcript, hnone]
  · rcases he : List.lookup id c with _ | e
    · simp [get_cached_transcript, he]
    · by_cases hage : now - e.timestamp < CACHE_TTL <;>
        simp [get_cached_transcript, he, hage]

/-- Witness for C6: a concrete entry read just inside and just outside
the TTL window. -/
theorem cache_ttl_read_witness :
    (List.lookup "vid" [("vid", (⟨⟨"t", "en", "vid", false⟩, 0⟩ : CacheEntry))]
      = some ⟨⟨"t", "en", "vid", false⟩, 0⟩ ∧
      ((get_cached_transcript [("vid", ⟨⟨"t", "en", "vid", false⟩, 0⟩)] 86399 "vid").1
          = some (⟨"t", "en", "vid", false⟩ : TResp) ↔ (86399 : ℚ) - 0 < CACHE_TTL)) ∧
    ((get_cached_transcript [("vid", ⟨⟨"t", "en", "vid", false⟩, 0⟩)] 86400 "vid").1
        = some (⟨"t", "en", "vid", false⟩ : TResp) ↔ (86400 : ℚ) - 0 < CACHE_TTL) := by
  refine ⟨⟨by decide, ?_⟩, ?_⟩
  · exact (cache_ttl_read [("vid", ⟨⟨"t", "en", "vid", false⟩, 0⟩)] 86399 "vid").1
      ⟨⟨"t", "en", "vid", false⟩, 0⟩ (by decide)
  · exact (cache_ttl_read [("vid", ⟨⟨"t", "en", "vid", false⟩, 0⟩)] 86400 "vid").1
      ⟨⟨"t", "en", "vid", false⟩, 0⟩ (by decide)

/-- C7: for an input whose extraction succeeds and whose first request
misses the cache and fetches successfully, a second request within the TTL
window returns the same transcript and language, with `cached` `false` then
`true`, and performs no upstream fetch. -/
theorem acquire_twice_cached (fetchOp : String → Except PyError TranscriptData)
    (c : Cache) (now1 now2 : ℚ) (url vid : String) (tr : TranscriptData)
    (hx : extract_video_id url = some vid)
    (hmiss : (get_cached_transcript c now1 vid).1 = none)
    (hfetch : fetchOp vid = Except.ok tr)
    (httl : now2 - now1 < CACHE_TTL) :
    ∃ r1 r2 : TResp,
      (handle_transcribe fetchOp c now1 url).1 = .ok r1 ∧
      (handle_transcribe fetchOp (handle_transcribe fetchOp c now1 url).2.1 now2 url).1
        = .ok r2 ∧
      r1.transcript = r2.transcript ∧ r1.language = r2.language ∧
      r1.cached = false ∧ r2.cached = true ∧
      (handle_transcribe fetchOp c now1 url).2.2 = 1 ∧
      (handle_transcribe fetchOp (handle_transcribe fetchOp c now1 url).2.1 now2 url).2.2
        = 0 := by
  have h1 : handle_transcribe fetchOp c now1 url
      = (.ok ⟨tr.transcript, tr.language, vid, false⟩,
         cache_transcript c now1 vid ⟨tr.transcript, tr.language, vid, false⟩, 1) := by
    simp [handle_transcribe, hx, hmiss, hfetch]
  have hlook : List.lookup vid
      (cache_transcript c now1 vid ⟨tr.transcript, tr.language, vid, false⟩)
      = some ⟨⟨tr.transcript, tr.language, vid, false⟩, now1⟩ := by
    simp [cache_transcript, List.lookup]
  have h2 : handle_transcribe fetchOp
      (cache_transcript c now1 vid ⟨tr.transcript, tr.language, vid, false⟩) now2 url
      = (.ok ⟨tr.transcript, tr.language, vid, true⟩,
         cache_transcript c now1 vid ⟨tr.transcript, tr.language, vid, false⟩, 0) := by
    simp [handle_transcribe, hx, get_cached_transcript, hlook, httl]
  refine ⟨⟨tr.transcript, tr.language, vid, false⟩, ⟨tr.transcript, tr.language, vid, true⟩,
    ?_, ?_, rfl, rfl, rfl, rfl, ?_, ?_⟩ <;> simp [h1, h2]

/-- Witness for C7: a bare identifier fetched at time 0 and re-requested at
time 10 with a constant upstream. -/
theorem acquire_twice_cached_witness :
    ((10 : ℚ) - 0 < CACHE_TTL) ∧
    ∃ r1 r2 : TResp,
      (handle_transcribe (fun _ => .ok ⟨"hello world", "en"⟩) [] 0 "dQw4w9WgXcQ").1
        = .ok r1 ∧
      (handle_transcribe (fun _ => .ok ⟨"hello world", "en"⟩)
        (handle_transcribe (fun _ => .ok ⟨"hello world", "en"⟩) [] 0 "dQw4w9WgXcQ").2.1
        10 "dQw4w9WgXcQ").1 = .ok r2 ∧
      r1.transcript = r2.transcript ∧ r1.language = r2.language ∧
      r1.cached = false ∧ r2.cached = true ∧
      (handle_transcribe (fun _ => .ok ⟨"hello world", "en"⟩) [] 0 "dQw4w9WgXcQ").2.2 = 1 ∧
      (handle_transcribe (fun _ => .ok ⟨"hello world", "en"⟩)
        (handle_transcribe (fun _ => .ok ⟨"hello world", "en"⟩) [] 0 "dQw4w9WgXcQ").2.1
        10 "dQw4w9WgXcQ").2.2 = 0 :=
  ⟨by norm_num [CACHE_TTL],
   acquire_twice_cached (fun _ => .ok ⟨"hello world", "en"⟩) [] 0 10 "dQw4w9WgXcQ"
     "dQw4w9WgXcQ" ⟨"hello world", "en"⟩ (by decide) rfl rfl (by norm_num [CACHE_TTL])⟩

/-- C8: clearing removes every entry unconditionally, reports the number of
entries present immediately before the call, and a subsequent request for
any identifier misses the now-empty cache and performs a fresh upstream
fetch marked uncached. -/
theorem clear_cache_spec (c : Cache) :
    (clear_cache c).2 = List.length c ∧
    (∀ id, List.lookup id (clear_cache c).1 = none) ∧
    (∀ fetchOp (now : ℚ) url vid tr, extract_video_id url = some vid →
      fetchOp vid = Except.ok tr →
      (handle_transcribe fetchOp (clear_cache c).1 now url).2.2 = 1 ∧
      (handle_transcribe fetchOp (clear_cache c).1 now url).1
        = .ok ⟨tr.transcript, tr.language, vid, false⟩) := by
  refine ⟨rfl, fun _ => rfl, ?_⟩
  intro fetchOp now url vid tr hx hf
  constructor <;> simp [handle_transcribe, clear_cache, hx, get_cached_transcript, hf]

/-- Witness for C8: a one-entry cache is cleared (1 entry reported) and the
next request fetches upstream. -/
theorem clear_cache_spec_witness :
    (clear_cache [("vid", (⟨⟨"t", "en", "vid", false⟩, 0⟩ : CacheEntry))]).2 = 1 ∧
    extract_video_id "dQw4w9WgXcQ" = some "dQw4w9WgXcQ" ∧
    (handle_transcribe (fun _ => .ok ⟨"t", "en"⟩)
      (clear_cache [("vid", ⟨⟨"t", "en", "vid", false⟩, 0⟩)]).1 0 "dQw4w9WgXcQ").2.2 = 1 := by
  have h := clear_cache_spec [("vid", ⟨⟨"t", "en", "vid", false⟩, 0⟩)]
  exact ⟨h.1, by decide,
    (h.2.2 (fun _ => .ok ⟨"t", "en"⟩) 0 "dQw4w9WgXcQ" "dQw4w9WgXcQ" ⟨"t", "en"⟩
      (by decide) rfl).1⟩

/-! ## Caption source resolver

Embedding of the track-selection logic of `fetch_transcript_with_retry`
(`transcript_api.py` lines 113-147, identical in `api/transcript_api.py`
lines 67-88).  `transcript_list` is the list of available caption tracks
supplied by the external provider; `find_transcript` models the provider's
lookup of a requested language (raising — caught by the bare `except` —
when absent, hence `Option`). -/

/-- One available caption track: a language tag and the machine-generated
flag, as exposed by the transcript provider. -/
structure CaptionTrack where
  language_code : String
  is_generated : Bool
  deriving DecidableEq

/-- The preferred-language argument `['en', 'en-US', 'en-GB']`. -/
def PREFERRED_LANGS : List String := ["en", "en-US", "en-GB"]

/-- `transcript_list.find_transcript(langs)` of the external provider:
tries the requested language codes in order and returns a track carrying
the first code that is available; its not-found exception is swallowed by
the caller's bare `except`, modelled as `none`. -/
def find_transcript (tracks : List CaptionTrack) : List String → Option CaptionTrack
  | [] => none
  | l :: ls =>
    match tracks.find? (fun t => t.language_code == l) with
    | some t => some t
    | none => find_transcript tracks ls

/-- The three-tier selection of `fetch_transcript_with_retry`: the
preferred-English lookup, then the first non-generated track, then the
first track of any kind; `none` models reaching
`raise NoTranscriptFound(video_id, [], {})`. -/
def resolve_transcript (tracks : List CaptionTrack) : Option CaptionTrack :=
  let transcript := find_transcript tracks PREFERRED_LANGS
  let transcript :=
    match transcript with
    | some t => some t
    | none => (tracks.filter fun t => !t.is_generated).head?
  match transcript with
  | some t => some t
  | none => tracks.head?

/-- A successful preferred-language lookup returns a member track whose
language is one of the requested codes. -/
theorem find_transcript_some {tracks : List CaptionTrack} {langs : List String}
    {t : CaptionTrack} (h : find_transcript tracks langs = some t) :
    t ∈ tracks ∧ t.language_code ∈ langs := by
  induction langs with
  | nil => simp [find_transcript] at h
  | cons l ls ih =>
    rcases hf : tracks.find? (fun t => t.language_code == l) with _ | u
    · rw [find_transcript, hf] at h
      obtain ⟨hmem, hlang⟩ := ih h
      exact ⟨hmem, List.mem_cons_of_mem _ hlang⟩
    · rw [find_transcript, hf] at h
      cases h
      refine ⟨List.mem_of_find?_eq_some hf, ?_⟩
      have := List.find?_some hf
      simp only [beq_iff_eq] at this
      simp [this]

/-- A failed preferred-language lookup means no track carries any of the
requested codes. -/
theorem find_transcript_none {tracks : List CaptionTrack} {langs : List String}
    (h : find_transcript tracks langs = none) :
    ∀ t ∈ tracks, t.language_code ∉ langs := by
  induction langs with
  | nil => intro t _ hl; cases hl
  | cons l ls ih =>
    rcases hf : tracks.find? (fun t => t.language_code == l) with _ | u
    · rw [find_transcript, hf] at h
      intro t ht hl
      rcases List.mem_cons.mp hl with rfl | hl
      · have := List.find?_eq_none.mp hf t ht
        simp at this
      · exact ih h t ht hl
    · rw [find_transcript, hf] at h
      cases h

/-- No track can be found in an empty track list. -/
theorem find_transcript_nil (langs : List String) :
    find_transcript [] langs = none := by
  induction langs with
  | nil => rfl
  | cons l ls ih => rw [find_transcript, List.find?_nil, ih]

/-- C1: the resolver fails only on an empty track list (so any video with
at least one caption track resolves), and selects by priority: a
preferred-English track when one exists; otherwise the first human-authored
(non-generated) track when any exists; otherwise the first track of any
kind. -/
theorem resolve_transcript_priority (tracks : List CaptionTrack) :
    (resolve_transcript tracks = none ↔ tracks = []) ∧
    (∀ t₀ ∈ tracks, t₀.language_code ∈ PREFERRED_LANGS →
      ∃ t, resolve_transcript tracks = some t ∧ t ∈ tracks ∧
        t.language_code ∈ PREFERRED_LANGS) ∧
    ((∀ t ∈ tracks, t.language_code ∉ PREFERRED_LANGS) →
      ∀ m ms, (tracks.filter fun t => !t.is_generated) = m :: ms →
        resolve_transcript tracks = some m ∧ m.is_generated = false) ∧
    ((∀ t ∈ tracks, t.language_code ∉ PREFERRED_LANGS) →
      (tracks.filter fun t => !t.is_generated) = [] →
      resolve_transcript tracks = tracks.head?) := by
  refine ⟨⟨?_, ?_⟩, ?_, ?_, ?_⟩
  · intro h
    rcases hf : find_transcript tracks PREFERRED_LANGS with _ | u
    · rcases hm : (tracks.filter fun t => !t.is_generated).head? with _ | m
      · rcases ht : tracks.head? with _ | a
        · cases tracks with
          | nil => rfl
          | cons a l => simp at ht
        · rw [resolve_transcript] at h
          simp [hf, hm, ht] at h
      · rw [resolve_transcript] at h
        simp [hf, hm] at h
    · rw [resolve_transcript] at h
      simp [hf] at h
  · rintro rfl
    simp [resolve_transcript, find_transcript_nil]
  · intro t₀ h₀ hl
    rcases hf : find_transcript tracks PREFERRED_LANGS with _ | u
    · exact absurd hl (find_transcript_none hf t₀ h₀)
    · obtain ⟨hm, hlang⟩ := find_transcript_some hf
      exact ⟨u, by simp [resolve_transcript, hf], hm, hlang⟩
  · intro hnp m ms hm
    rcases hf : find_transcript tracks PREFERRED_LANGS with _ | u
    · refine ⟨by simp [resolve_transcript, hf, hm], ?_⟩
      have hmem : m ∈ tracks.filter (fun t => !t.is_generated) := by
        rw [hm]; exact List.mem_cons_self _ _
      simpa using List.of_mem_filter hmem
    · obtain ⟨hmm, hlang⟩ := find_transcript_some hf
      exact absurd hlang (hnp u hmm)
  · intro hnp hfil
    rcases hf : find_transcript tracks PREFERRED_LANGS with _ | u
    · simp [resolve_transcript, hf, hfil]
    · obtain ⟨hmm, hlang⟩ := find_transcript_some hf
      exact absurd hlang (hnp u hmm)

/-- Witness for C1: a single non-English machine-generated track is
returned rather than failing; an available English track wins; with no
English track the first human-authored track wins over an earlier
machine-generated one. -/
theorem resolve_transcript_priority_witness :
    resolve_transcript [⟨"ru", true⟩] = some ⟨"ru", true⟩ ∧
    (∃ t, resolve_transcript [⟨"fr", false⟩, ⟨"en", true⟩] = some t ∧
      t ∈ [(⟨"fr", false⟩ : CaptionTrack), ⟨"en", true⟩] ∧
      t.language_code ∈ PREFERRED_LANGS) ∧
    resolve_transcript [⟨"fr", true⟩, ⟨"de", false⟩] = some ⟨"de", false⟩ := by
  refine ⟨?_, ?_, ?_⟩
  · exact (resolve_transcript_priority [⟨"ru", true⟩]).2.2.2 (by decide) (by decide)
  · exact (resolve_transcript_priority [⟨"fr", false⟩, ⟨"en", true⟩]).2.1
      ⟨"en", true⟩ (by decide) (by decide)
  · exact ((resolve_transcript_priority [⟨"fr", true⟩, ⟨"de", false⟩]).2.2.1
      (by decide) ⟨"de", false⟩ [] (by decide)).1

/-! ## Audio-acquisition bot-bypass strategies

Embedding of `download_youtube_audio` in
`api/youtube_deepgram_transcriber.py` (lines 55-200).  A strategy's
`subprocess.run(cmd, ..., timeout=120)` is abstracted as an outcome
function; its stderr classification uses Python's substring operator `in`
on the lowercased stderr.  `sys.exit(1)` after the loop and the `break` on
an unavailable/private message both end in the fatal exit. -/

/-- The bypass strategies, in the order the code appends them. -/
inductive Strategy where
  | poTokenVisitorData
  | cookiesFile
  | iosClient
  | tvEmbedded
  | mobileWeb
  | androidTestsuite
  | webClient
  deriving DecidableEq

/-- The `timeout=120` (seconds) passed to `subprocess.run` for every
strategy attempt. -/
def DOWNLOAD_TIMEOUT : Nat := 120

/-- The strategy list built at the top of `download_youtube_audio`:
po_token+visitor_data only when both env vars are set, the cookies file
only when it exists, then the five fixed client-identity spoofs. -/
def strategies (hasPoToken hasCookies : Bool) : List Strategy :=
  (if hasPoToken then [Strategy.poTokenVisitorData] else []) ++
  (if hasCookies then [Strategy.cookiesFile] else []) ++
  [Strategy.iosClient, Strategy.tvEmbedded, Strategy.mobileWeb,
   Strategy.androidTestsuite, Strategy.webClient]

/-- Outcome of one `subprocess.run` of yt-dlp under a strategy. -/
inductive AttemptOutcome where
  | success
  | timeoutExpired
  | calledProcessError (stderr : String)

/-- Final outcome of `download_youtube_audio`: a completed download or the
fatal `sys.exit(1)`. -/
inductive DownloadResult where
  | downloaded
  | exitFailure
  deriving DecidableEq

/-- Python's `str.lower()` (the stderr texts involved are ASCII). -/
def strLower (s : String) : String :=
  String.mk (s.data.map Char.toLower)

/-- Python's substring operator: `pat in s` (scan every start position). -/
def hasSubstring (pat : List Char) : List Char → Bool
  | [] => (matchLit pat []).isSome
  | c :: t => (matchLit pat (c :: t)).isSome || hasSubstring pat t

/-- `pat in s` on strings. -/
def strContains (s pat : String) : Bool :=
  hasSubstring pat.data s.data

/-- The `for strategy in strategies` loop: success returns; a timeout
continues; a `CalledProcessError` is classified on the lowercased stderr —
the bot/sign-in test first (continue), then unavailable/private (`break`,
ending in `sys.exit(1)`), then the age test and the generic case (both
continue).  Also returns the list of strategies actually attempted. -/
def runStrategies (attempt : Strategy → AttemptOutcome) :
    List Strategy → DownloadResult × List Strategy
  | [] => (.exitFailure, [])
  | s :: rest =>
    match attempt s with
    | .success => (.downloaded, [s])
    | .timeoutExpired =>
      let r := runStrategies attempt rest
      (r.1, s :: r.2)
    | .calledProcessError stderr =>
      let error_lower := strLower stderr
      if strContains error_lower "bot" || strContains error_lower "sign in" then
        let r := runStrategies attempt rest
        (r.1, s :: r.2)
      else if strContains error_lower "unavailable" || strContains error_lower "private" then
        (.exitFailure, [s])
      else
        let r := runStrategies attempt rest
        (r.1, s :: r.2)

/-- `download_youtube_audio` : build the strategy list from the
configuration and run the attempt loop over it. -/
def download_youtube_audio (hasPoToken hasCookies : Bool)
    (attempt : Strategy → AttemptOutcome) : DownloadResult × List Strategy :=
  runStrategies attempt (strategies hasPoToken hasCookies)

/-- C9 counterexample: a first-strategy failure whose stderr says the video
is unavailable but also mentions the bot check is classified by the earlier
bot/sign-in test, so the remaining strategies are NOT skipped and the
acquisition even succeeds on the next strategy — contradicting the claim
that an unavailable/private failure always short-circuits terminally. -/
theorem download_unavailable_not_shortcircuit :
    strContains
        (strLower "ERROR: Sign in to confirm you are not a bot. Video unavailable")
        "unavailable" = true ∧
    download_youtube_audio false false
        (fun s =>
          match s with
          | Strategy.iosClient =>
            AttemptOutcome.calledProcessError
              "ERROR: Sign in to confirm you are not a bot. Video unavailable"
          | _ => AttemptOutcome.success)
      = (DownloadResult.downloaded, [Strategy.iosClient, Strategy.tvEmbedded]) := by
  constructor
  · decide
  · decide

/-- C9 as amended: the strategies are attempted in the fixed priority order
(token credentials when configured, then cookies when present, then the
five client spoofs), and a strategy failure whose lowercased stderr
contains `unavailable` or `private` — and matches neither of the
earlier-tested markers `bot` / `sign in` — skips all remaining strategies
and fails the whole acquisition terminally. -/
theorem download_strategy_order_and_shortcircuit :
    strategies true true =
      [Strategy.poTokenVisitorData, Strategy.cookiesFile, Strategy.iosClient,
       Strategy.tvEmbedded, Strategy.mobileWeb, Strategy.androidTestsuite,
       Strategy.webClient] ∧
    strategies false true =
      [Strategy.cookiesFile, Strategy.iosClient, Strategy.tvEmbedded,
       Strategy.mobileWeb, Strategy.androidTestsuite, Strategy.webClient] ∧
    strategies true false =
      [Strategy.poTokenVisitorData, Strategy.iosClient, Strategy.tvEmbedded,
       Strategy.mobileWeb, Strategy.androidTestsuite, Strategy.webClient] ∧
    strategies false false =
      [Strategy.iosClient, Strategy.tvEmbedded, Strategy.mobileWeb,
       Strategy.androidTestsuite, Strategy.webClient] ∧
    (∀ attempt s rest stderr,
      attempt s = AttemptOutcome.calledProcessError stderr →
      strContains (strLower stderr) "bot" = false →
      strContains (strLower stderr) "sign in" = false →
      (strContains (strLower stderr) "unavailable" = true ∨
        strContains (strLower stderr) "private" = true) →
      runStrategies attempt (s :: rest) = (DownloadResult.exitFailure, [s])) := by
  refine ⟨by decide, by decide, by decide, by decide, ?_⟩
  intro attempt s rest stderr h hb hs hu
  rcases hu with hu | hu <;> simp [runStrategies, h, hb, hs, hu]

/-- Witness for the amended C9 at a concrete unavailable-only stderr. -/
theorem download_strategy_shortcircuit_witness :
    (fun _ : Strategy =>
        AttemptOutcome.calledProcessError "ERROR: Video unavailable") Strategy.iosClient
      = AttemptOutcome.calledProcessError "ERROR: Video unavailable" ∧
    runStrategies (fun _ => AttemptOutcome.calledProcessError "ERROR: Video unavailable")
        [Strategy.iosClient, Strategy.tvEmbedded]
      = (DownloadResult.exitFailure, [Strategy.iosClient]) :=
  ⟨rfl,
   download_strategy_order_and_shortcircuit.2.2.2.2
     (fun _ => AttemptOutcome.calledProcessError "ERROR: Video unavailable")
     Strategy.iosClient [Strategy.tvEmbedded] "ERROR: Video unavailable"
     rfl (by decide) (by decide) (Or.inl (by decide))⟩
